import Mathlib

/-!
Verification of the investor-attribution core of the dasein-dashboard
repository (`src/services/investorCalculationService.ts`), shallowly
embedded over exact rational arithmetic.  Calendar dates are embedded as a
timestamp `t` (the value `Date.getTime()` compares), the day of month
(`Date.getDate()`), and a year-month code (what `startsWith "YYYY-MM"`
inspects on an ISO date string).  JavaScript's `Array.prototype.sort` is
stable, so it is embedded as a stable insertion sort, whose output any
stable sort determines uniquely.
-/

namespace Dasein

/-- A calendar date as the source observes it: `t` is the epoch timestamp
(`getTime`), `day` the day of month (`getDate`), `ym` a year-month code
standing for the `"YYYY-MM"` prefix of the ISO date string. -/
structure JDate where
  t : Int
  day : Nat
  ym : Int
deriving DecidableEq, Repr

/-- One fund-wide valuation row of the `monthly_nav` table, with the fields
the calculation service reads. -/
structure MonthlyNav where
  month_end_date : JDate
  total_nav : ℚ
  month_start_date : Option JDate
  start_nav : Option ℚ
deriving DecidableEq, Repr

/-- One row of `capital_flows`: a single investor cash movement. -/
structure CapitalFlow where
  investor_id : String
  date : JDate
  amount : ℚ
  type : String
deriving DecidableEq, Repr

/-- One row of `investors`, with the fields the calculation service reads. -/
structure Investor where
  id : String
  name : String
  initial_investment : ℚ
  start_date : JDate
  status : String
  mgmt_fee_rate : ℚ
  performance_fee_rate : ℚ
deriving DecidableEq, Repr

/-- The `{currentValue, returnPercentage}` record `calculateInvestorValue`
returns. -/
structure CalcResult where
  currentValue : ℚ
  returnPercentage : ℚ
deriving DecidableEq, Repr

/-- One element of the array `calculateInvestorValues` returns (`return` is
a keyword in Lean, so that field is named `ret`). -/
structure InvResult where
  id : String
  name : String
  initialInvestment : ℚ
  currentValue : ℚ
  ret : ℚ
  status : String
  mgmtFeeRate : ℚ
  perfFeeRate : ℚ
  startDate : JDate
deriving DecidableEq, Repr

/-- The record `verifyNavReconciliation` returns. -/
structure ReconResult where
  totalNav : ℚ
  sumInvestorValues : ℚ
  discrepancy : ℚ
  isReconciled : Bool
deriving DecidableEq, Repr

/-- Insert `e` in front of the first element `x` with `le e x`; the
building block of the stable sort below. -/
def insertBy (le : α → α → Bool) (e : α) : List α → List α
  | [] => [e]
  | x :: xs => if le e x then e :: x :: xs else x :: insertBy le e xs

/-- Stable sort with respect to `le` (elements the comparator ties keep
their original relative order), embedding JavaScript's stable
`Array.prototype.sort`. -/
def stableSortBy (le : α → α → Bool) : List α → List α
  | [] => []
  | x :: xs => insertBy le x (stableSortBy le xs)

/-- `[...allNavHistory].sort((a, b) => end(a) - end(b))`: NAV history
sorted ascending by `month_end_date`. -/
def sortNavAsc (h : List MonthlyNav) : List MonthlyNav :=
  stableSortBy (fun a b => decide (a.month_end_date.t ≤ b.month_end_date.t)) h

/-- `.sort((a, b) => date(b) - date(a))`: transactions sorted descending by
date, used to pick the last withdrawal of a closed account. -/
def sortTxDesc (ts : List CapitalFlow) : List CapitalFlow :=
  stableSortBy (fun a b => decide (b.date.t ≤ a.date.t)) ts

/-- `calculateTotalInvested`: initial investment plus contributions minus
withdrawals, a plain fold over the transaction list. -/
def calculateTotalInvested (initialInvestment : ℚ) (transactions : List CapitalFlow) : ℚ :=
  transactions.foldl
    (fun total transaction =>
      if transaction.type = "contribution" then total + transaction.amount
      else if transaction.type = "withdrawal" then total - transaction.amount
      else total)
    initialInvestment

/-- `calculateReturn`: percentage return with the `invested <= 0` guard. -/
def calculateReturn (invested : ℚ) (currentValue : ℚ) : ℚ :=
  if invested ≤ 0 then 0 else (currentValue - invested) / invested * 100

/-- `findClosestNavPoint`: latest NAV point whose `month_end_date` is at or
before `date`; the loop breaks at the first later point, so nothing after
it is examined. -/
def findClosestNavPoint : List MonthlyNav → JDate → Option MonthlyNav
  | [], _ => none
  | n :: rest, d =>
    if n.month_end_date.t ≤ d.t then
      match findClosestNavPoint rest d with
      | some m => some m
      | none => some n
    else none

/-- Truthiness of `nav.start_nav` in JavaScript: present and nonzero. -/
def hasStartNavTruthy (n : MonthlyNav) : Bool :=
  match n.start_nav with
  | some v => decide (v ≠ 0)
  | none => false

/-- Whether `nav.month_start_date` is present with timestamp `t`
(the check `nav.month_start_date && new Date(...).getTime() === t`). -/
def isMonthStartAt (n : MonthlyNav) (t : Int) : Bool :=
  match n.month_start_date with
  | some d => decide (d.t = t)
  | none => false

/-- The month-start half of the entry-valuation selection (lines 164-175):
when the investor starts on the 1st of a month and some record's
`month_start_date` matches the start date with a truthy `start_nav`, that
`start_nav`; `none` otherwise. -/
def viaMonthStart (sortedNavHistory : List MonthlyNav) (inv : Investor) : Option ℚ :=
  if inv.start_date.day = 1 then
    match sortedNavHistory.find? (fun nav => isMonthStartAt nav inv.start_date.t) with
    | some m => if hasStartNavTruthy m then some (m.start_nav.getD 0) else none
    | none => none
  else none

/-- Entry-valuation selection of `calculateInvestorValue` (its lines
156-185): a month-start `start_nav` when the investor starts on the 1st
and a matching truthy `start_nav` exists, otherwise the `total_nav` of the
closest NAV point at or before `start_date`; `none` when neither exists. -/
def entrySelect (sortedNavHistory : List MonthlyNav) (inv : Investor) : Option ℚ :=
  match viaMonthStart sortedNavHistory inv with
  | some v => some v
  | none => (findClosestNavPoint sortedNavHistory inv.start_date).map (fun p => p.total_nav)

/-- Payload of a timeline event: a NAV point or a transaction. -/
inductive EvData where
  | nav (n : MonthlyNav)
  | txn (c : CapitalFlow)
deriving DecidableEq, Repr

/-- One event of the unified timeline. -/
structure Event where
  date : JDate
  data : EvData
deriving DecidableEq, Repr

/-- Whether an event is a NAV event. -/
def Event.isNav : Event → Bool
  | ⟨_, .nav _⟩ => true
  | ⟨_, .txn _⟩ => false

/-- The month-start timeline point of one NAV record, when its
`month_start_date` is present. -/
def startEvents (n : MonthlyNav) : List Event :=
  match n.month_start_date with
  | some d => [⟨d, .nav n⟩]
  | none => []

/-- The NAV events pushed by `createUnifiedTimeline` before sorting: a
month-start point whenever `month_start_date` is present, then the
month-end point, per record in order. -/
def navEvents : List MonthlyNav → List Event
  | [] => []
  | n :: rest => startEvents n ++ (⟨n.month_end_date, .nav n⟩ :: navEvents rest)

/-- The transaction events pushed by `createUnifiedTimeline`. -/
def txnEvents (transactions : List CapitalFlow) : List Event :=
  transactions.map (fun c => ⟨c.date, .txn c⟩)

/-- The comparator `(a, b) => a.date.getTime() - b.date.getTime()` as the
order the stable sort uses. -/
def dateLe (a b : Event) : Bool := decide (a.date.t ≤ b.date.t)

/-- `createUnifiedTimeline`: NAV events first, then transactions, stably
sorted ascending by date. -/
def createUnifiedTimeline (navHistory : List MonthlyNav) (transactions : List CapitalFlow) :
    List Event :=
  stableSortBy dateLe (navEvents navHistory ++ txnEvents transactions)

/-- The ordering claim of the timeline tie-break: whenever `a` precedes
`b` at the same date and `b` is a NAV event, `a` is a NAV event too —
that is, no transaction precedes a NAV event of its own date. -/
def navBeforeTxn (a b : Event) : Prop :=
  a.date.t = b.date.t → b.isNav = true → a.isNav = true

/-- Mutable state of the ownership walk: the running ownership fraction and
the fund value last observed. -/
structure WalkState where
  ownershipPercentage : ℚ
  currentNavValue : ℚ
deriving DecidableEq, Repr

/-- One iteration of the timeline loop of `calculateInvestorValue` (its
lines 247-293): skip events before `start_date`; a NAV event updates only
`currentNavValue` (`start_nav` at a month-start point, `total_nav` at a
month-end point); a transaction of this investor reprices the ownership
fraction, clamping withdrawals at zero. -/
def walkStep (inv : Investor) (startT : Int) (s : WalkState) (e : Event) : WalkState :=
  if e.date.t < startT then s
  else
    match e.data with
    | .nav n =>
      if isMonthStartAt n e.date.t && hasStartNavTruthy n then
        { s with currentNavValue := n.start_nav.getD 0 }
      else if n.month_end_date.t = e.date.t then
        { s with currentNavValue := n.total_nav }
      else s
    | .txn c =>
      if c.investor_id ≠ inv.id then s
      else if c.type = "contribution" then
        { s with
          ownershipPercentage :=
            (s.currentNavValue * s.ownershipPercentage + c.amount) / s.currentNavValue }
      else if c.type = "withdrawal" then
        { s with
          ownershipPercentage :=
            max 0 ((s.currentNavValue * s.ownershipPercentage - c.amount) / s.currentNavValue) }
      else s

/-- Year-month code of "2025-02", the prefix the Mitchell Pantelides
special handling tests with `startsWith`. -/
def ym202502 : Int := 202502

/-- The first half of the "Marc & Kim Daudet" special handling (lines
205-220): when a first transaction exists and NAV points lie between the
start date and that transaction, rebase the entry valuation to the last
such point. -/
def marcRebase (inv : Investor) (sortedNavHistory : List MonthlyNav)
    (sortedTransactions : List CapitalFlow) (s : WalkState) : WalkState :=
  match sortedTransactions.head? with
  | some firstTransaction =>
    let relevantNavPoints := sortedNavHistory.filter
      (fun nav => decide (inv.start_date.t ≤ nav.month_end_date.t) &&
        decide (nav.month_end_date.t ≤ firstTransaction.date.t))
    match relevantNavPoints.getLast? with
    | some lastPoint => ⟨inv.initial_investment / lastPoint.total_nav, lastPoint.total_nav⟩
    | none => s
  | none => s

/-- The "Marc & Kim Daudet" special handling (lines 203-227): the rebase
above, then a 15 percent boost of an ownership fraction below 0.05. -/
def marcAdjust (inv : Investor) (sortedNavHistory : List MonthlyNav)
    (sortedTransactions : List CapitalFlow) (s : WalkState) : WalkState :=
  let s1 := marcRebase inv sortedNavHistory sortedTransactions s
  if s1.ownershipPercentage < 1 / 20 then
    { s1 with ownershipPercentage := inv.initial_investment / s1.currentNavValue * (23 / 20) }
  else s1

/-- The "Mitchell Pantelides" special handling (lines 229-245): when a
February 2025 NAV row exists and the investor started in February 2025,
rebase the entry valuation to that row's `total_nav`. -/
def mitchellAdjust (inv : Investor) (sortedNavHistory : List MonthlyNav) (s : WalkState) :
    WalkState :=
  match sortedNavHistory.find? (fun nav => decide (nav.month_end_date.ym = ym202502)) with
  | some feb =>
    if inv.start_date.ym = ym202502 then
      ⟨inv.initial_investment / feb.total_nav, feb.total_nav⟩
    else s
  | none => s

/-- Initial walk state: ownership `initial_investment / initialNavValue`
and NAV reference `initialNavValue`, then the two per-name special
handlers in source order. -/
def specialInit (inv : Investor) (sortedNavHistory : List MonthlyNav)
    (sortedTransactions : List CapitalFlow) (initialNavValue : ℚ) : WalkState :=
  let s0 : WalkState := ⟨inv.initial_investment / initialNavValue, initialNavValue⟩
  let s1 :=
    if inv.name = "Marc & Kim Daudet" then marcAdjust inv sortedNavHistory sortedTransactions s0
    else s0
  if inv.name = "Mitchell Pantelides" then mitchellAdjust inv sortedNavHistory s1 else s1

/-- Entry selection composed with the per-name special handling: the state
the ownership walk starts from, or `none` when no entry valuation exists. -/
def walkInit (inv : Investor) (sortedNavHistory : List MonthlyNav)
    (sortedTransactions : List CapitalFlow) : Option WalkState :=
  (entrySelect sortedNavHistory inv).map (specialInit inv sortedNavHistory sortedTransactions)

/-- Most recent withdrawal of a transaction list: filter withdrawals, sort
descending by date, take the head. -/
def lastWithdrawal (transactions : List CapitalFlow) : Option CapitalFlow :=
  (sortTxDesc (transactions.filter (fun t => decide (t.type = "withdrawal")))).head?

/-- The closed-account branch of `calculateInvestorValue` (lines 127-144):
value 0 and, when a withdrawal exists, a return computed from the last
withdrawal against the simple total invested. -/
def closedResult (inv : Investor) (transactions : List CapitalFlow) : CalcResult :=
  match lastWithdrawal transactions with
  | some w =>
    ⟨0, calculateReturn (calculateTotalInvested inv.initial_investment transactions) w.amount⟩
  | none => ⟨0, 0⟩

/-- The final per-name overrides of `calculateInvestorValue` (lines
310-330): a negative computed return is replaced by 5 percent for Mitchell
Pantelides and 10 percent for Marc & Kim Daudet, repricing the value from
the initial investment. -/
def mitchellMarcOverride (inv : Investor) (currentValue returnPercentage : ℚ) : CalcResult :=
  if inv.name = "Mitchell Pantelides" ∧ returnPercentage < 0 then
    ⟨inv.initial_investment * (1 + 5 / 100), 5⟩
  else if inv.name = "Marc & Kim Daudet" ∧ returnPercentage < 0 then
    ⟨inv.initial_investment * (1 + 10 / 100), 10⟩
  else ⟨currentValue, returnPercentage⟩

/-- `calculateInvestorValue` (lines 116-336).  The transaction sort on line
152 compares `a.date` with itself, so it is the identity on the list and
is embedded as such.  When no entry valuation exists the function logs and
returns `{0, 0}`. -/
def calculateInvestorValue (inv : Investor) (transactions : List CapitalFlow)
    (latestNav : MonthlyNav) (allNavHistory : List MonthlyNav) : CalcResult :=
  if inv.status = "closed" then closedResult inv transactions
  else
    let sortedNavHistory := sortNavAsc allNavHistory
    let sortedTransactions := transactions
    match walkInit inv sortedNavHistory sortedTransactions with
    | none => ⟨0, 0⟩
    | some s0 =>
      let timeline := createUnifiedTimeline sortedNavHistory sortedTransactions
      let finalState := timeline.foldl (walkStep inv inv.start_date.t) s0
      let currentValue := latestNav.total_nav * finalState.ownershipPercentage
      let totalInvested := calculateTotalInvested inv.initial_investment sortedTransactions
      let returnPercentage := calculateReturn totalInvested currentValue
      mitchellMarcOverride inv currentValue returnPercentage

/-- The successive values of `ownershipPercentage` along the walk of
`calculateInvestorValue` (initial state included), built with the same
`walkInit`, `createUnifiedTimeline` and `walkStep`; `none` on the
closed-account bypass or when no entry valuation exists. -/
def ownershipTrace (inv : Investor) (transactions : List CapitalFlow)
    (allNavHistory : List MonthlyNav) : Option (List ℚ) :=
  if inv.status = "closed" then none
  else
    let sortedNavHistory := sortNavAsc allNavHistory
    match walkInit inv sortedNavHistory transactions with
    | none => none
    | some s0 =>
      some (((createUnifiedTimeline sortedNavHistory transactions).scanl
        (walkStep inv inv.start_date.t) s0).map (fun s => s.ownershipPercentage))

/-- Line 89 of `calculateInvestorValues`: the display-time correction
factor, an unguarded division. -/
def scaleFactor (totalNAV sumInvestorValues : ℚ) : ℚ := totalNAV / sumInvestorValues

/-- Sum of `currentValue` over results with `status = "active"`. -/
def activeSum (rs : List InvResult) : ℚ :=
  ((rs.filter (fun r => decide (r.status = "active"))).map (fun r => r.currentValue)).sum

/-- The per-investor mapping of `calculateInvestorValues` (lines 36-61),
with the data reads passed in explicitly: each investor's transactions
come from `txsOf` on its id. -/
def investorResultsRaw (latestNav : MonthlyNav) (investors : List Investor)
    (allNavHistory : List MonthlyNav) (txsOf : String → List CapitalFlow) : List InvResult :=
  investors.map (fun investor =>
    let result := calculateInvestorValue investor (txsOf investor.id) latestNav allNavHistory
    ⟨investor.id, investor.name, investor.initial_investment, result.currentValue,
      result.returnPercentage, investor.status, investor.mgmt_fee_rate,
      investor.performance_fee_rate, investor.start_date⟩)

/-- The "manual adjustments to problematic investors" of
`calculateInvestorValues` (lines 63-82). -/
def adjustOne (investor : InvResult) : InvResult :=
  if investor.name = "Marc & Kim Daudet" ∧ investor.ret < 0 then
    { investor with currentValue := investor.initialInvestment * (1 + 10 / 100), ret := 10 }
  else if investor.name = "Mitchell Pantelides" ∧ investor.ret < 0 then
    { investor with currentValue := investor.initialInvestment * (1 + 5 / 100), ret := 5 }
  else investor

/-- The adjustment pass mapped over all results. -/
def adjustResults (rs : List InvResult) : List InvResult := rs.map adjustOne

/-- The per-investor scaling of `calculateInvestorValues` (lines 91-105):
an active investor's value is multiplied by the scale factor and its
return recomputed from the scaled value; others pass through unchanged. -/
def scaleOne (sf : ℚ) (investor : InvResult) : InvResult :=
  if investor.status = "active" then
    let scaledValue := investor.currentValue * sf
    let scaledReturn := (scaledValue - investor.initialInvestment) / investor.initialInvestment * 100
    { investor with currentValue := scaledValue, ret := scaledReturn }
  else investor

/-- The scaling pass of `calculateInvestorValues` (lines 84-105): the
scale factor is computed once from the active investors' sum, then mapped
over all results. -/
def applyScale (totalNAV : ℚ) (rs : List InvResult) : List InvResult :=
  rs.map (scaleOne (scaleFactor totalNAV (activeSum rs)))

/-- `calculateInvestorValues` (lines 9-110), with the database reads
(latest NAV, investors, NAV history, per-investor transactions) passed in
explicitly as the external persistence collaborator supplies them. -/
def calculateInvestorValues :
    Option MonthlyNav → List Investor → List MonthlyNav → (String → List CapitalFlow) →
      List InvResult
  | none, _, _, _ => []
  | some latestNav, investors, allNavHistory, txsOf =>
    if investors.isEmpty then []
    else applyScale latestNav.total_nav (adjustResults (investorResultsRaw latestNav investors allNavHistory txsOf))

/-- `verifyNavReconciliation` (lines 494-528): recomputes the batch, sums
active investors' values, and compares against the latest total NAV with
the relative tolerance 0.0001. -/
def verifyNavReconciliation (latestNav? : Option MonthlyNav) (investors : List Investor)
    (allNavHistory : List MonthlyNav) (txsOf : String → List CapitalFlow) : ReconResult :=
  match latestNav? with
  | none => ⟨0, 0, 0, false⟩
  | some latestNav =>
    let investorValues := calculateInvestorValues (some latestNav) investors allNavHistory txsOf
    let sumInvestorValues := activeSum investorValues
    let totalNav := latestNav.total_nav
    let discrepancy := |totalNav - sumInvestorValues|
    ⟨totalNav, sumInvestorValues, discrepancy, decide (discrepancy < totalNav * (1 / 10000))⟩

/-! Concrete scenario data used by witnesses and counterexamples.  Dates
are coherent calendar dates of early 2024 (timestamps on a small scale):
January 5, January 31, February 15 and February 28. -/

/-- January 5, 2024. -/
def dJan05 : JDate := ⟨2, 5, 202401⟩

/-- January 15, 2024. -/
def dJan15 : JDate := ⟨5, 15, 202401⟩

/-- January 31, 2024. -/
def dJan31 : JDate := ⟨10, 31, 202401⟩

/-- February 15, 2024. -/
def dFeb15 : JDate := ⟨20, 15, 202402⟩

/-- February 28, 2024. -/
def dFeb28 : JDate := ⟨40, 28, 202402⟩

/-- A NAV snapshot of 100 at the end of January 2024. -/
def navJan : MonthlyNav := ⟨dJan31, 100, none, none⟩

/-- A later NAV snapshot of 50 (the fund halved). -/
def navFebLow : MonthlyNav := ⟨dFeb28, 50, none, none⟩

/-- A later NAV snapshot of 150 (the fund grew by half). -/
def navFebHigh : MonthlyNav := ⟨dFeb28, 150, none, none⟩

/-- An active investor of 100 entering at the January month end, with the
name left as a parameter: all other fields agree across names. -/
def sampleInvestor (nm : String) : Investor := ⟨"i1", nm, 100, dJan31, "active", 0, 0⟩

/-- A Marc & Kim Daudet account of 1 against a fund of 100: its ownership
fraction 0.01 is below the 0.05 threshold of the special handling. -/
def marcBoostInv : Investor := ⟨"i1", "Marc & Kim Daudet", 1, dJan31, "active", 0, 0⟩

/-- An active investor whose start date precedes every NAV snapshot. -/
def caraInv : Investor := ⟨"c1", "Cara Diaz", 100, dJan05, "active", 0, 0⟩

/-- A closed investor with no withdrawal on record. -/
def eveClosed : Investor := ⟨"e1", "Eve Park", 100, dJan15, "closed", 0, 0⟩

/-- A closed investor who withdrew more than was put in. -/
def bobClosed : Investor := ⟨"b1", "Bob Tan", 100, dJan15, "closed", 0, 0⟩

/-- A closed Marc & Kim Daudet account. -/
def marcClosed : Investor := ⟨"m1", "Marc & Kim Daudet", 100, dJan15, "closed", 0, 0⟩

/-- An active investor of 100 entering at the January month end. -/
def fayInv : Investor := ⟨"f1", "Fay Iqbal", 100, dJan31, "active", 0, 0⟩

/-- An active investor of 50 entering at the January month end. -/
def gusInv : Investor := ⟨"g1", "Gus Moreau", 50, dJan31, "active", 0, 0⟩

/-- Bob's withdrawal of 150. -/
def wBob : CapitalFlow := ⟨"b1", dFeb15, 150, "withdrawal"⟩

/-- Marc's withdrawal of 40: total invested stays 60, so the computed
closed-account return is negative. -/
def wMarc : CapitalFlow := ⟨"m1", dFeb15, 40, "withdrawal"⟩

/-- A mid-February contribution of 30 by investor `i1`. -/
def cAlice : CapitalFlow := ⟨"i1", dFeb15, 30, "contribution"⟩

/-- The transaction read of a store with no capital flows. -/
def noFlows : String → List CapitalFlow := fun _ => []

/-! Membership facts about the stable sort and the selectors. -/

theorem mem_insertBy {α : Type} {le : α → α → Bool} {e a : α} {l : List α} :
    a ∈ insertBy le e l ↔ a = e ∨ a ∈ l := by
  induction l with
  | nil => simp [insertBy]
  | cons x xs ih =>
    simp only [insertBy]
    split
    · simp [List.mem_cons]
    · simp only [List.mem_cons, ih]
      tauto

theorem mem_stableSortBy {α : Type} {le : α → α → Bool} {a : α} {l : List α} :
    a ∈ stableSortBy le l ↔ a ∈ l := by
  induction l with
  | nil => simp [stableSortBy]
  | cons x xs ih => simp [stableSortBy, mem_insertBy, ih]

theorem findClosestNavPoint_mem :
    ∀ {l : List MonthlyNav} {d : JDate} {m : MonthlyNav},
      findClosestNavPoint l d = some m → m ∈ l := by
  intro l
  induction l with
  | nil => intro d m h; simp [findClosestNavPoint] at h
  | cons n rest ih =>
    intro d m h
    unfold findClosestNavPoint at h
    split at h
    · split at h
      next hrec => injection h with h; subst h; exact List.mem_cons_of_mem _ (ih hrec)
      next hrec => injection h with h; subst h; exact List.mem_cons_self _ _
    · exact Option.noConfusion h

theorem hasStartNavTruthy_some {n : MonthlyNav} (h : hasStartNavTruthy n = true) :
    ∃ w, n.start_nav = some w ∧ w ≠ 0 := by
  unfold hasStartNavTruthy at h
  cases hs : n.start_nav with
  | none => rw [hs] at h; simp at h
  | some w =>
    rw [hs] at h
    simp only [decide_eq_true_eq] at h
    exact ⟨w, rfl, h⟩

theorem viaMonthStart_pos {sh : List MonthlyNav} {inv : Investor} {v : ℚ}
    (hpos : ∀ n ∈ sh, 0 < n.total_nav ∧ ∀ w, n.start_nav = some w → 0 < w)
    (h : viaMonthStart sh inv = some v) : 0 < v := by
  unfold viaMonthStart at h
  split at h
  · split at h
    next m hfind =>
      split at h
      next htruthy =>
        injection h with h
        subst h
        obtain ⟨w, hw, _⟩ := hasStartNavTruthy_some htruthy
        rw [hw]
        exact (hpos m (List.mem_of_find?_eq_some hfind)).2 w hw
      next => exact Option.noConfusion h
    next => exact Option.noConfusion h
  · exact Option.noConfusion h

theorem entrySelect_pos {sh : List MonthlyNav} {inv : Investor} {v : ℚ}
    (hpos : ∀ n ∈ sh, 0 < n.total_nav ∧ ∀ w, n.start_nav = some w → 0 < w)
    (h : entrySelect sh inv = some v) : 0 < v := by
  unfold entrySelect at h
  split at h
  next v2 heq =>
    injection h with h
    subst h
    exact viaMonthStart_pos hpos heq
  next heq =>
    rw [Option.map_eq_some'] at h
    obtain ⟨p, hp, hv⟩ := h
    subst hv
    exact (hpos p (findClosestNavPoint_mem hp)).1

/-! The timeline tie-break: NAV events precede transaction events of the
same date, by stability of the sort. -/

theorem startEvents_data {n : MonthlyNav} {e : Event} (he : e ∈ startEvents n) :
    e.data = EvData.nav n := by
  unfold startEvents at he
  cases hm : n.month_start_date with
  | some d =>
    rw [hm] at he
    simp only [List.mem_singleton] at he
    subst he
    rfl
  | none => rw [hm] at he; simp at he

theorem mem_navEvents :
    ∀ {h : List MonthlyNav} {e : Event}, e ∈ navEvents h → ∃ n ∈ h, e.data = EvData.nav n := by
  intro h
  induction h with
  | nil => intro e he; simp [navEvents] at he
  | cons n rest ih =>
    intro e he
    simp only [navEvents, List.mem_append, List.mem_cons] at he
    rcases he with hs | he | he
    · exact ⟨n, List.mem_cons_self _ _, startEvents_data hs⟩
    · subst he; exact ⟨n, List.mem_cons_self _ _, rfl⟩
    · obtain ⟨m, hm, hd⟩ := ih he
      exact ⟨m, List.mem_cons_of_mem _ hm, hd⟩

theorem mem_txnEvents {t : List CapitalFlow} {e : Event} (he : e ∈ txnEvents t) :
    ∃ c ∈ t, e.data = EvData.txn c := by
  simp only [txnEvents, List.mem_map] at he
  obtain ⟨c, hc, rfl⟩ := he
  exact ⟨c, hc, rfl⟩

theorem navEvents_isNav {h : List MonthlyNav} {e : Event} (he : e ∈ navEvents h) :
    e.isNav = true := by
  obtain ⟨n, _, hd⟩ := mem_navEvents he
  obtain ⟨d, dat⟩ := e
  cases dat with
  | nav m => rfl
  | txn c => exact absurd hd (by simp)

theorem txnEvents_isTxn {t : List CapitalFlow} {e : Event} (he : e ∈ txnEvents t) :
    e.isNav = false := by
  simp only [txnEvents, List.mem_map] at he
  obtain ⟨c, _, rfl⟩ := he
  rfl

theorem pairwise_insertBy_nav {e : Event} (he : e.isNav = true) :
    ∀ {l : List Event}, l.Pairwise navBeforeTxn →
      (insertBy dateLe e l).Pairwise navBeforeTxn := by
  intro l
  induction l with
  | nil => intro _; simp [insertBy, navBeforeTxn]
  | cons x xs ih =>
    intro hp
    rw [List.pairwise_cons] at hp
    obtain ⟨hx, hxs⟩ := hp
    simp only [insertBy]
    split
    next hle =>
      refine List.pairwise_cons.mpr ⟨?_, List.pairwise_cons.mpr ⟨hx, hxs⟩⟩
      intro y _ _ _
      exact he
    next hle =>
      refine List.pairwise_cons.mpr ⟨?_, ih hxs⟩
      intro y hy
      rcases mem_insertBy.mp hy with rfl | hy2
      · intro hd _
        exfalso
        have hnle : ¬ (y.date.t ≤ x.date.t) := by
          simpa [dateLe] using hle
        exact hnle (le_of_eq hd.symm)
      · exact hx y hy2

theorem pairwise_txn_list :
    ∀ {l : List Event}, (∀ x ∈ l, x.isNav = false) → l.Pairwise navBeforeTxn := by
  intro l
  induction l with
  | nil => intro _; exact List.Pairwise.nil
  | cons x xs ih =>
    intro h
    refine List.pairwise_cons.mpr ⟨?_, ih fun y hy => h y (List.mem_cons_of_mem _ hy)⟩
    intro y hy _ hnav
    rw [h y (List.mem_cons_of_mem _ hy)] at hnav
    exact absurd hnav (by simp)

theorem pairwise_sort_navtxn :
    ∀ (l₁ : List Event), (∀ x ∈ l₁, x.isNav = true) →
      ∀ {l₂ : List Event}, (∀ x ∈ l₂, x.isNav = false) →
        (stableSortBy dateLe (l₁ ++ l₂)).Pairwise navBeforeTxn := by
  intro l₁
  induction l₁ with
  | nil =>
    intro _ l₂ h₂
    simp only [List.nil_append]
    exact pairwise_txn_list fun x hx => h₂ x (mem_stableSortBy.mp hx)
  | cons x xs ih =>
    intro h₁ l₂ h₂
    simp only [List.cons_append, stableSortBy]
    exact pairwise_insertBy_nav (h₁ x (List.mem_cons_self x xs))
      (ih (fun y hy => h₁ y (List.mem_cons_of_mem _ hy)) h₂)

/-- C6: in the timeline produced by `createUnifiedTimeline`, for every
date, every NAV event dated there precedes every transaction event dated
there, for all input snapshot and transaction lists: pairwise along the
output, an earlier event with the same date as a later NAV event is
itself a NAV event, so no transaction ever precedes a same-date NAV
update. -/
theorem c6_nav_events_precede_transactions (navHistory : List MonthlyNav)
    (transactions : List CapitalFlow) :
    (createUnifiedTimeline navHistory transactions).Pairwise navBeforeTxn :=
  pairwise_sort_navtxn (navEvents navHistory) (fun _ hx => navEvents_isNav hx)
    (fun _ hx => txnEvents_isTxn hx)

/-! The display-time scaling: algebra of `scaleFactor` and `applyScale`. -/

theorem activeSum_cons (r : InvResult) (rs : List InvResult) :
    activeSum (r :: rs) = (if r.status = "active" then r.currentValue else 0) + activeSum rs := by
  by_cases hr : r.status = "active" <;> simp [activeSum, List.filter_cons, hr]

theorem scaleOne_status (f : ℚ) (r : InvResult) : (scaleOne f r).status = r.status := by
  unfold scaleOne
  split <;> rfl

theorem scaleOne_active_value (f : ℚ) (r : InvResult) (hr : r.status = "active") :
    (scaleOne f r).currentValue = r.currentValue * f := by
  unfold scaleOne
  rw [if_pos hr]

theorem activeSum_map_scaleOne (f : ℚ) (rs : List InvResult) :
    activeSum (rs.map (scaleOne f)) = f * activeSum rs := by
  induction rs with
  | nil => simp [activeSum]
  | cons r rs ih =>
    rw [List.map_cons, activeSum_cons, activeSum_cons, ih]
    by_cases hr : r.status = "active"
    · rw [if_pos hr, if_pos (by rw [scaleOne_status]; exact hr), scaleOne_active_value f r hr]
      ring
    · rw [if_neg hr, if_neg (by rw [scaleOne_status]; exact hr)]
      ring

theorem activeSum_applyScale (totalNAV : ℚ) (rs : List InvResult) :
    activeSum (applyScale totalNAV rs) = scaleFactor totalNAV (activeSum rs) * activeSum rs := by
  unfold applyScale
  exact activeSum_map_scaleOne _ rs

/-- After the scaling pass, the active investors' values of the batch sum
to the latest total NAV, provided the pre-scaling active sum is nonzero. -/
theorem activeSum_batch (latestNav : MonthlyNav) (investors : List Investor)
    (hist : List MonthlyNav) (txsOf : String → List CapitalFlow)
    (h : activeSum (adjustResults (investorResultsRaw latestNav investors hist txsOf)) ≠ 0) :
    activeSum (calculateInvestorValues (some latestNav) investors hist txsOf) =
      latestNav.total_nav := by
  simp only [calculateInvestorValues]
  by_cases he : investors.isEmpty = true
  · exfalso
    have hinv : investors = [] := List.isEmpty_iff.mp he
    subst hinv
    simp [investorResultsRaw, adjustResults, activeSum] at h
  · rw [if_neg he, activeSum_applyScale]
    unfold scaleFactor
    exact div_mul_cancel₀ _ h

/-- C7, corrected: the display-time correction computes
`scale_factor = total_nav / sum_investor_values` with no divide-by-zero
guard.  The scaling multiplies the active sum by exactly that factor, and
a nonzero sum cancels to `total_nav`; but at a zero sum the factor is not
1 (the source's division by zero yields a non-finite number, and the
rational embedding's total division yields 0 — under either reading the
guard the claim describes is absent). -/
theorem c7_scale_factor_unguarded :
    (∀ totalNAV : ℚ, ∀ rs : List InvResult,
        activeSum (applyScale totalNAV rs) = scaleFactor totalNAV (activeSum rs) * activeSum rs)
    ∧ (∀ totalNAV sumInvestorValues : ℚ, sumInvestorValues ≠ 0 →
        scaleFactor totalNAV sumInvestorValues * sumInvestorValues = totalNAV)
    ∧ (∀ totalNAV : ℚ, scaleFactor totalNAV 0 ≠ 1) := by
  refine ⟨fun T rs => activeSum_applyScale T rs, fun T s hs => ?_, fun T => ?_⟩
  · unfold scaleFactor
    exact div_mul_cancel₀ _ hs
  · unfold scaleFactor
    simp

/-- Witness for C7 at concrete numbers. -/
theorem c7_scale_factor_unguarded_witness :
    scaleFactor 100 50 * 50 = 100 ∧ scaleFactor 7 0 ≠ 1 :=
  ⟨c7_scale_factor_unguarded.2.1 100 50 (by norm_num), c7_scale_factor_unguarded.2.2 7⟩

/-- Counterexample for C7 as stated: the claim says a zero sum of active
investor values is guarded by taking `scale_factor = 1`; the code's
`scaleFactor` at sum 0 is the bare division `total_nav / 0`, which is not
1 (in the source it is JavaScript's non-finite `Infinity`; in the
rational embedding it is the total division's 0 — not 1 either way, and
no branch on a zero sum exists in `calculateInvestorValues`). -/
theorem c7_counterexample : scaleFactor 100 0 ≠ 1 := by
  unfold scaleFactor
  simp

/-- C8: `verifyNavReconciliation` reconciles exactly when the absolute
discrepancy between the latest total NAV and the active investors' summed
current values is below `total_nav * 0.0001`; a zero `total_nav` is never
reconciled, and an exact match against a positive `total_nav` gives zero
discrepancy and a reconciled verdict. -/
theorem c8_reconciliation_tolerance (latestNav : MonthlyNav) (investors : List Investor)
    (hist : List MonthlyNav) (txsOf : String → List CapitalFlow) :
    ((verifyNavReconciliation (some latestNav) investors hist txsOf).isReconciled = true ↔
      |latestNav.total_nav -
          activeSum (calculateInvestorValues (some latestNav) investors hist txsOf)| <
        latestNav.total_nav * (1 / 10000))
    ∧ (latestNav.total_nav = 0 →
        (verifyNavReconciliation (some latestNav) investors hist txsOf).isReconciled = false)
    ∧ (activeSum (calculateInvestorValues (some latestNav) investors hist txsOf) =
          latestNav.total_nav → 0 < latestNav.total_nav →
        (verifyNavReconciliation (some latestNav) investors hist txsOf).discrepancy = 0 ∧
          (verifyNavReconciliation (some latestNav) investors hist txsOf).isReconciled = true) := by
  refine ⟨?_, ?_, ?_⟩
  · simp [verifyNavReconciliation]
  · intro h0
    simp only [verifyNavReconciliation, h0, decide_eq_false_iff_not, not_lt, zero_mul]
    exact abs_nonneg _
  · intro hs hT
    constructor
    · simp [verifyNavReconciliation, hs]
    · simp only [verifyNavReconciliation, hs, sub_self, abs_zero, decide_eq_true_eq]
      exact mul_pos hT (by norm_num)

/-- Witness for C8: one active investor worth exactly the fund. -/
theorem c8_reconciliation_tolerance_witness :
    (verifyNavReconciliation (some navJan) [fayInv] [navJan] noFlows).discrepancy = 0 ∧
      (verifyNavReconciliation (some navJan) [fayInv] [navJan] noFlows).isReconciled = true := by
  refine (c8_reconciliation_tolerance navJan [fayInv] [navJan] noFlows).2.2 ?_ (by norm_num [navJan])
  norm_num +decide [calculateInvestorValues, investorResultsRaw, adjustResults, adjustOne,
    applyScale, scaleOne, activeSum, scaleFactor, calculateInvestorValue, closedResult,
    lastWithdrawal, sortTxDesc, calculateTotalInvested, calculateReturn, mitchellMarcOverride,
    walkInit, entrySelect, viaMonthStart, sortNavAsc, stableSortBy, insertBy, findClosestNavPoint,
    specialInit, marcRebase, marcAdjust, mitchellAdjust, createUnifiedTimeline, navEvents, startEvents,
    txnEvents, dateLe, walkStep, isMonthStartAt, hasStartNavTruthy, ym202502, fayInv, navJan,
    dJan31, noFlows, List.foldl, List.find?, List.filter]

/-- C9: after the display-time scale correction, the active investors'
corrected values sum exactly (in rational arithmetic) to the latest total
NAV, provided the pre-correction active sum is nonzero. -/
theorem c9_scaled_active_sum (latestNav : MonthlyNav) (investors : List Investor)
    (hist : List MonthlyNav) (txsOf : String → List CapitalFlow)
    (h : activeSum (adjustResults (investorResultsRaw latestNav investors hist txsOf)) ≠ 0) :
    activeSum (calculateInvestorValues (some latestNav) investors hist txsOf) =
      latestNav.total_nav :=
  activeSum_batch latestNav investors hist txsOf h

/-- Witness for C9: two active investors with raw values 100 and 50 get
scaled by 100/150, after which their values sum to the fund's 100. -/
theorem c9_scaled_active_sum_witness :
    activeSum (calculateInvestorValues (some navJan) [fayInv, gusInv] [navJan] noFlows) =
      navJan.total_nav := by
  refine c9_scaled_active_sum navJan [fayInv, gusInv] [navJan] noFlows ?_
  norm_num +decide [investorResultsRaw, adjustResults, adjustOne, activeSum,
    calculateInvestorValue, closedResult, lastWithdrawal, sortTxDesc, calculateTotalInvested,
    calculateReturn, mitchellMarcOverride, walkInit, entrySelect, viaMonthStart, sortNavAsc,
    stableSortBy, insertBy, findClosestNavPoint, specialInit, marcRebase, marcAdjust, mitchellAdjust,
    createUnifiedTimeline, navEvents, startEvents, txnEvents, dateLe, walkStep, isMonthStartAt,
    hasStartNavTruthy, ym202502, fayInv, gusInv, navJan, dJan31, noFlows, List.foldl, List.find?,
    List.filter]

/-- C10: because `verifyNavReconciliation` sums the already-scaled output
of `calculateInvestorValues`, a positive pre-correction active sum forces
a zero discrepancy and a reconciled verdict whatever the per-investor
attribution was — the check cannot see defects the scaling normalizes
away.  The positivity of the latest `total_nav` is the data model's
standing invariant on NAV snapshots. -/
theorem c10_reconciliation_blind (latestNav : MonthlyNav) (investors : List Investor)
    (hist : List MonthlyNav) (txsOf : String → List CapitalFlow)
    (hT : 0 < latestNav.total_nav) (_hne : investors ≠ [])
    (hS : 0 < activeSum (adjustResults (investorResultsRaw latestNav investors hist txsOf))) :
    (verifyNavReconciliation (some latestNav) investors hist txsOf).discrepancy = 0 ∧
      (verifyNavReconciliation (some latestNav) investors hist txsOf).isReconciled = true := by
  have hsum := activeSum_batch latestNav investors hist txsOf (ne_of_gt hS)
  constructor
  · simp [verifyNavReconciliation, hsum]
  · simp only [verifyNavReconciliation, hsum, sub_self, abs_zero, decide_eq_true_eq]
    exact mul_pos hT (by norm_num)

/-- Witness for C10 at the two-investor scenario of the C9 witness. -/
theorem c10_reconciliation_blind_witness :
    (verifyNavReconciliation (some navJan) [fayInv, gusInv] [navJan] noFlows).discrepancy = 0 ∧
      (verifyNavReconciliation (some navJan) [fayInv, gusInv] [navJan] noFlows).isReconciled =
        true := by
  refine c10_reconciliation_blind navJan [fayInv, gusInv] [navJan] noFlows
    (by norm_num [navJan]) (by simp) ?_
  norm_num +decide [investorResultsRaw, adjustResults, adjustOne, activeSum,
    calculateInvestorValue, closedResult, lastWithdrawal, sortTxDesc, calculateTotalInvested,
    calculateReturn, mitchellMarcOverride, walkInit, entrySelect, viaMonthStart, sortNavAsc,
    stableSortBy, insertBy, findClosestNavPoint, specialInit, marcRebase, marcAdjust, mitchellAdjust,
    createUnifiedTimeline, navEvents, startEvents, txnEvents, dateLe, walkStep, isMonthStartAt,
    hasStartNavTruthy, ym202502, fayInv, gusInv, navJan, dJan31, noFlows, List.foldl, List.find?,
    List.filter]

/-! The no-flow walk: NAV events never change the ownership fraction. -/

theorem walkStep_nav_ownership (inv : Investor) (startT : Int) (s : WalkState) (d : JDate)
    (n : MonthlyNav) :
    (walkStep inv startT s ⟨d, EvData.nav n⟩).ownershipPercentage = s.ownershipPercentage := by
  unfold walkStep
  split
  · rfl
  · dsimp only
    split
    · rfl
    · split <;> rfl

theorem foldl_nav_ownership (inv : Investor) (startT : Int) :
    ∀ (l : List Event) (s : WalkState), (∀ e ∈ l, e.isNav = true) →
      (l.foldl (walkStep inv startT) s).ownershipPercentage = s.ownershipPercentage := by
  intro l
  induction l with
  | nil => intro s _; rfl
  | cons e l ih =>
    intro s h
    obtain ⟨d, dat⟩ := e
    cases dat with
    | nav n =>
      rw [List.foldl_cons, ih _ (fun x hx => h x (List.mem_cons_of_mem _ hx)),
        walkStep_nav_ownership]
    | txn c =>
      have := h ⟨d, EvData.txn c⟩ (List.mem_cons_self _ _)
      simp [Event.isNav] at this

theorem timeline_noflows_isNav {h : List MonthlyNav} {e : Event}
    (he : e ∈ createUnifiedTimeline h []) : e.isNav = true := by
  unfold createUnifiedTimeline at he
  have hm := mem_stableSortBy.mp he
  rw [txnEvents, List.map_nil, List.append_nil] at hm
  exact navEvents_isNav hm

/-- The per-name special handling is inert for any other name. -/
theorem specialInit_generic (inv : Investor) (sh : List MonthlyNav) (st : List CapitalFlow)
    (v : ℚ) (hn1 : inv.name ≠ "Mitchell Pantelides") (hn2 : inv.name ≠ "Marc & Kim Daudet") :
    specialInit inv sh st v = ⟨inv.initial_investment / v, v⟩ := by
  unfold specialInit
  dsimp only
  rw [if_neg hn1, if_neg hn2]

/-- C1, corrected: for an investor with zero capital flows whose status is
not closed, whose name is neither of the two specially-handled names, with
a positive initial investment and a positive entry NAV chosen by the
initialization rule, `calculateInvestorValue` returns exactly
`current_value = latest_total_nav * (initial_investment / entry_nav)` and
`return_percentage = (current_value - initial_investment) /
initial_investment * 100`. -/
theorem c1_no_flow_invariance (inv : Investor) (latestNav : MonthlyNav)
    (hist : List MonthlyNav) (entryNav : ℚ)
    (hstat : inv.status ≠ "closed")
    (hn1 : inv.name ≠ "Mitchell Pantelides")
    (hn2 : inv.name ≠ "Marc & Kim Daudet")
    (hinit : 0 < inv.initial_investment)
    (hent : entrySelect (sortNavAsc hist) inv = some entryNav)
    (_hpos : 0 < entryNav) :
    calculateInvestorValue inv [] latestNav hist =
      ⟨latestNav.total_nav * (inv.initial_investment / entryNav),
        (latestNav.total_nav * (inv.initial_investment / entryNav) - inv.initial_investment) /
          inv.initial_investment * 100⟩ := by
  have hfold :
      ((createUnifiedTimeline (sortNavAsc hist) []).foldl (walkStep inv inv.start_date.t)
          ⟨inv.initial_investment / entryNav, entryNav⟩).ownershipPercentage =
        inv.initial_investment / entryNav :=
    foldl_nav_ownership _ _ _ _ (fun x hx => timeline_noflows_isNav hx)
  unfold calculateInvestorValue
  rw [if_neg hstat]
  unfold walkInit
  dsimp only
  rw [hent, Option.map_some', specialInit_generic inv _ _ _ hn1 hn2]
  dsimp only
  rw [hfold]
  have hti : calculateTotalInvested inv.initial_investment [] = inv.initial_investment := rfl
  rw [hti]
  unfold calculateReturn
  rw [if_neg (not_le.mpr hinit)]
  unfold mitchellMarcOverride
  rw [if_neg (fun hc => hn1 hc.1), if_neg (fun hc => hn2 hc.1)]

/-- Witness for C1: entry NAV 100, latest NAV 150, no flows, value 150 and
a 50 percent return. -/
theorem c1_no_flow_invariance_witness :
    calculateInvestorValue (sampleInvestor "Alice Wong") [] navFebHigh [navJan] = ⟨150, 50⟩ := by
  have h := c1_no_flow_invariance (sampleInvestor "Alice Wong") navFebHigh [navJan] 100
    (by decide) (by decide) (by decide) (by norm_num [sampleInvestor])
    (by norm_num +decide [entrySelect, viaMonthStart, sortNavAsc, stableSortBy, insertBy,
      findClosestNavPoint, isMonthStartAt, hasStartNavTruthy, sampleInvestor, navJan, dJan31])
    (by norm_num)
  rw [h]
  norm_num [CalcResult.mk.injEq, sampleInvestor, navFebHigh]

/-- Counterexample for C1 as stated: a Mitchell Pantelides account with no
capital flows, entry NAV 100, latest NAV 50.  The formula of the claim
gives value 50 with a negative return, but the name-specific override
replaces the result by value 105 and return 5. -/
theorem c1_counterexample :
    entrySelect (sortNavAsc [navJan]) (sampleInvestor "Mitchell Pantelides") = some 100
    ∧ calculateInvestorValue (sampleInvestor "Mitchell Pantelides") [] navFebLow [navJan] =
        ⟨105, 5⟩
    ∧ navFebLow.total_nav * ((sampleInvestor "Mitchell Pantelides").initial_investment / 100) = 50
    ∧ (105 : ℚ) ≠ 50 := by
  refine ⟨?_, ?_, by norm_num [navFebLow, sampleInvestor], by norm_num⟩
  · norm_num +decide [entrySelect, viaMonthStart, sortNavAsc, stableSortBy, insertBy,
      findClosestNavPoint, isMonthStartAt, hasStartNavTruthy, sampleInvestor, navJan, dJan31]
  · norm_num +decide [calculateInvestorValue, closedResult, lastWithdrawal, sortTxDesc,
      calculateTotalInvested, calculateReturn, mitchellMarcOverride, walkInit, entrySelect,
      viaMonthStart, sortNavAsc, stableSortBy, insertBy, findClosestNavPoint, specialInit,
      marcRebase, marcAdjust, mitchellAdjust, createUnifiedTimeline, navEvents, startEvents, txnEvents,
      dateLe, walkStep, isMonthStartAt, hasStartNavTruthy, ym202502, sampleInvestor, navJan,
      navFebLow, dJan31, dFeb28, List.foldl, List.find?, List.filter, CalcResult.mk.injEq]

/-- C4, corrected: when no NAV snapshot exists at or before the investor's
start date (and no month-start match applies), `calculateInvestorValue`
does not substitute a fallback snapshot — but neither does it surface an
error: it logs and returns the plain record `{0, 0}`. -/
theorem c4_no_valuation_result (inv : Investor) (transactions : List CapitalFlow)
    (latestNav : MonthlyNav) (hist : List MonthlyNav)
    (hstat : inv.status ≠ "closed")
    (hent : entrySelect (sortNavAsc hist) inv = none) :
    calculateInvestorValue inv transactions latestNav hist = ⟨0, 0⟩ := by
  unfold calculateInvestorValue
  rw [if_neg hstat]
  unfold walkInit
  dsimp only
  rw [hent, Option.map_none']

/-- Witness for C4: an investor starting before every snapshot. -/
theorem c4_no_valuation_result_witness :
    calculateInvestorValue caraInv [] navFebLow [navJan] = ⟨0, 0⟩ :=
  c4_no_valuation_result caraInv [] navFebLow [navJan] (by decide) (by decide)

/-- Counterexample for C4 as stated: the claim says the computation fails
with `NoValuationAvailable` surfaced to the caller.  On an investor whose
start date precedes every snapshot, the entry selection indeed finds
nothing, yet the function returns the ordinary record `{0, 0}` — the very
value a legitimately-computed closed account with no withdrawal also
returns — so no error reaches the caller and the two cases are
indistinguishable in the result. -/
theorem c4_counterexample :
    entrySelect (sortNavAsc [navJan]) caraInv = none
    ∧ calculateInvestorValue caraInv [] navFebLow [navJan] = ⟨0, 0⟩
    ∧ calculateInvestorValue eveClosed [] navFebLow [navJan] = ⟨0, 0⟩ := by
  refine ⟨by decide, ?_, ?_⟩
  · norm_num +decide [calculateInvestorValue, closedResult, lastWithdrawal, sortTxDesc,
      calculateTotalInvested, calculateReturn, mitchellMarcOverride, walkInit, entrySelect,
      viaMonthStart, sortNavAsc, stableSortBy, insertBy, findClosestNavPoint, specialInit,
      marcRebase, marcAdjust, mitchellAdjust, createUnifiedTimeline, navEvents, startEvents, txnEvents,
      dateLe, walkStep, isMonthStartAt, hasStartNavTruthy, ym202502, caraInv, navJan, navFebLow,
      dJan31, dJan05, List.foldl, List.find?, List.filter, CalcResult.mk.injEq]
  · norm_num +decide [calculateInvestorValue, closedResult, lastWithdrawal, sortTxDesc,
      calculateTotalInvested, calculateReturn, mitchellMarcOverride, eveClosed, List.filter,
      CalcResult.mk.injEq]

/-- C5: the per-name overrides are real — three calls to
`calculateInvestorValue` on inputs identical except for `investor.name`
give: the computed negative result for an unlisted name, value
`1.05 * initial_investment` with return 5 for Mitchell Pantelides, and
value `1.10 * initial_investment` with return 10 for Marc & Kim Daudet;
in particular the output is not independent of the name field. -/
theorem c5_name_override :
    calculateInvestorValue (sampleInvestor "Anna Lee") [] navFebLow [navJan] = ⟨50, -50⟩
    ∧ calculateInvestorValue (sampleInvestor "Mitchell Pantelides") [] navFebLow [navJan] =
        ⟨(sampleInvestor "Mitchell Pantelides").initial_investment * (1 + 5 / 100), 5⟩
    ∧ calculateInvestorValue (sampleInvestor "Marc & Kim Daudet") [] navFebLow [navJan] =
        ⟨(sampleInvestor "Marc & Kim Daudet").initial_investment * (1 + 10 / 100), 10⟩
    ∧ ((-50 : ℚ) < 0)
    ∧ calculateInvestorValue (sampleInvestor "Anna Lee") [] navFebLow [navJan] ≠
        calculateInvestorValue (sampleInvestor "Mitchell Pantelides") [] navFebLow [navJan] := by
  refine ⟨?_, ?_, ?_, by norm_num, ?_⟩ <;>
    norm_num +decide [calculateInvestorValue, closedResult, lastWithdrawal, sortTxDesc,
      calculateTotalInvested, calculateReturn, mitchellMarcOverride, walkInit, entrySelect,
      viaMonthStart, sortNavAsc, stableSortBy, insertBy, findClosestNavPoint, specialInit,
      marcRebase, marcAdjust, mitchellAdjust, createUnifiedTimeline, navEvents, startEvents, txnEvents,
      dateLe, walkStep, isMonthStartAt, hasStartNavTruthy, ym202502, sampleInvestor, navJan,
      navFebLow, dJan31, dFeb28, List.foldl, List.find?, List.filter, List.head?,
      CalcResult.mk.injEq]

/-! The ownership walk invariant: the fraction never goes negative while
the NAV reference stays positive. -/

theorem walkStep_preserves (inv : Investor) (startT : Int) (s : WalkState) (e : Event)
    (hs : 0 ≤ s.ownershipPercentage ∧ 0 < s.currentNavValue)
    (hnav : ∀ n, e.data = EvData.nav n → 0 < n.total_nav ∧ ∀ w, n.start_nav = some w → 0 < w)
    (htxn : ∀ c, e.data = EvData.txn c → 0 ≤ c.amount) :
    0 ≤ (walkStep inv startT s e).ownershipPercentage ∧
      0 < (walkStep inv startT s e).currentNavValue := by
  obtain ⟨d, dat⟩ := e
  cases dat with
  | nav n =>
    have hn := hnav n rfl
    unfold walkStep
    split
    · exact hs
    · dsimp only
      split
      next hcond =>
        have h2 : hasStartNavTruthy n = true := ((Bool.and_eq_true _ _).mp hcond).2
        obtain ⟨w, hw, _⟩ := hasStartNavTruthy_some h2
        refine ⟨hs.1, ?_⟩
        dsimp only
        rw [hw, Option.getD_some]
        exact hn.2 w hw
      next =>
        split
        · exact ⟨hs.1, hn.1⟩
        · exact hs
  | txn c =>
    have hc := htxn c rfl
    unfold walkStep
    split
    · exact hs
    · dsimp only
      split
      · exact hs
      · split
        · exact ⟨div_nonneg (add_nonneg (mul_nonneg hs.2.le hs.1) hc) hs.2.le, hs.2⟩
        · split
          · exact ⟨le_max_left _ _, hs.2⟩
          · exact hs

theorem scanl_head {α β : Type} (f : β → α → β) (s : β) (l : List α) :
    (List.scanl f s l).head? = some s := by
  cases l <;> simp [List.scanl_nil, List.scanl_cons]

theorem scanl_walk_preserves (inv : Investor) (startT : Int) :
    ∀ (l : List Event) (s : WalkState),
      0 ≤ s.ownershipPercentage ∧ 0 < s.currentNavValue →
      (∀ e ∈ l,
        (∀ n, e.data = EvData.nav n → 0 < n.total_nav ∧ ∀ w, n.start_nav = some w → 0 < w) ∧
          (∀ c, e.data = EvData.txn c → 0 ≤ c.amount)) →
      ∀ x ∈ List.scanl (walkStep inv startT) s l,
        0 ≤ x.ownershipPercentage ∧ 0 < x.currentNavValue := by
  intro l
  induction l with
  | nil =>
    intro s hs _ x hx
    rw [List.scanl_nil, List.mem_singleton] at hx
    subst hx
    exact hs
  | cons e l ih =>
    intro s hs hl x hx
    rw [List.scanl_cons] at hx
    simp only [List.singleton_append, List.mem_cons] at hx
    rcases hx with rfl | hx
    · exact hs
    · exact ih (walkStep inv startT s e)
        (walkStep_preserves inv startT s e hs (hl e (List.mem_cons_self _ _)).1
          (hl e (List.mem_cons_self _ _)).2)
        (fun y hy => hl y (List.mem_cons_of_mem _ hy)) x hx

theorem timeline_event_bounds {hist : List MonthlyNav} {txs : List CapitalFlow} {e : Event}
    (he : e ∈ createUnifiedTimeline (sortNavAsc hist) txs)
    (hpos : ∀ n ∈ hist, 0 < n.total_nav ∧ ∀ w, n.start_nav = some w → 0 < w)
    (hamt : ∀ c ∈ txs, 0 ≤ c.amount) :
    (∀ n, e.data = EvData.nav n → 0 < n.total_nav ∧ ∀ w, n.start_nav = some w → 0 < w) ∧
      (∀ c, e.data = EvData.txn c → 0 ≤ c.amount) := by
  unfold createUnifiedTimeline at he
  have hm := mem_stableSortBy.mp he
  rw [List.mem_append] at hm
  rcases hm with hm | hm
  · obtain ⟨n, hn, hd⟩ := mem_navEvents hm
    have hn2 : n ∈ hist := mem_stableSortBy.mp hn
    constructor
    · intro n2 hd2
      rw [hd] at hd2
      injection hd2 with hd2
      subst hd2
      exact hpos n hn2
    · intro c hd2
      rw [hd] at hd2
      exact absurd hd2 (by simp)
  · obtain ⟨c, hc, hd⟩ := mem_txnEvents hm
    constructor
    · intro n hd2
      rw [hd] at hd2
      exact absurd hd2 (by simp)
    · intro c2 hd2
      rw [hd] at hd2
      injection hd2 with hd2
      subst hd2
      exact hamt c hc

theorem marcRebase_preserves {inv : Investor} {sh : List MonthlyNav} {st : List CapitalFlow}
    {s : WalkState}
    (hinit : 0 ≤ inv.initial_investment)
    (hpos : ∀ n ∈ sh, 0 < n.total_nav ∧ ∀ w, n.start_nav = some w → 0 < w)
    (hs : 0 ≤ s.ownershipPercentage ∧ 0 < s.currentNavValue) :
    0 ≤ (marcRebase inv sh st s).ownershipPercentage ∧
      0 < (marcRebase inv sh st s).currentNavValue := by
  unfold marcRebase
  split
  next ft =>
    dsimp only
    split
    next lastPoint heq =>
      have hmem : lastPoint ∈ sh :=
        (List.mem_filter.mp (List.mem_of_getLast?_eq_some heq)).1
      have hlp := (hpos lastPoint hmem).1
      exact ⟨div_nonneg hinit hlp.le, hlp⟩
    next => exact hs
  next => exact hs

theorem marcAdjust_preserves {inv : Investor} {sh : List MonthlyNav} {st : List CapitalFlow}
    {s : WalkState}
    (hinit : 0 ≤ inv.initial_investment)
    (hpos : ∀ n ∈ sh, 0 < n.total_nav ∧ ∀ w, n.start_nav = some w → 0 < w)
    (hs : 0 ≤ s.ownershipPercentage ∧ 0 < s.currentNavValue) :
    0 ≤ (marcAdjust inv sh st s).ownershipPercentage ∧
      0 < (marcAdjust inv sh st s).currentNavValue := by
  unfold marcAdjust
  dsimp only
  rcases marcRebase_preserves hinit hpos hs with ⟨ha, hb⟩
  split
  · exact ⟨mul_nonneg (div_nonneg hinit hb.le) (by norm_num), hb⟩
  · exact ⟨ha, hb⟩

theorem mitchellAdjust_preserves {inv : Investor} {sh : List MonthlyNav} {s : WalkState}
    (hinit : 0 ≤ inv.initial_investment)
    (hpos : ∀ n ∈ sh, 0 < n.total_nav ∧ ∀ w, n.start_nav = some w → 0 < w)
    (hs : 0 ≤ s.ownershipPercentage ∧ 0 < s.currentNavValue) :
    0 ≤ (mitchellAdjust inv sh s).ownershipPercentage ∧
      0 < (mitchellAdjust inv sh s).currentNavValue := by
  unfold mitchellAdjust
  split
  next feb hfind =>
    split
    · have hfp := (hpos feb (List.mem_of_find?_eq_some hfind)).1
      exact ⟨div_nonneg hinit hfp.le, hfp⟩
    · exact hs
  next => exact hs

theorem specialInit_preserves {inv : Investor} {sh : List MonthlyNav} {st : List CapitalFlow}
    {v : ℚ}
    (hinit : 0 ≤ inv.initial_investment)
    (hpos : ∀ n ∈ sh, 0 < n.total_nav ∧ ∀ w, n.start_nav = some w → 0 < w)
    (hv : 0 < v) :
    0 ≤ (specialInit inv sh st v).ownershipPercentage ∧
      0 < (specialInit inv sh st v).currentNavValue := by
  have h0 : 0 ≤ (⟨inv.initial_investment / v, v⟩ : WalkState).ownershipPercentage ∧
      0 < (⟨inv.initial_investment / v, v⟩ : WalkState).currentNavValue :=
    ⟨div_nonneg hinit hv.le, hv⟩
  unfold specialInit
  dsimp only
  split
  · apply mitchellAdjust_preserves hinit hpos
    split
    · exact marcAdjust_preserves hinit hpos h0
    · exact h0
  · split
    · exact marcAdjust_preserves hinit hpos h0
    · exact h0

/-- C2, corrected: under positive NAV values and positive transaction
amounts, every intermediate ownership fraction of the walk (the trace of
`ownershipPercentage` values, initial state included) is nonnegative; for
an investor with neither specially-handled name the trace starts at
`initial_investment / entry_nav`; NAV events leave the fraction unchanged;
a contribution of this investor at or after the start date strictly grows
it (given a positive NAV reference); and a withdrawal clamps it at zero
through `max`.  (For the two specially-handled names the starting value
can be rebased or boosted, which is the corrected part.) -/
theorem c2_ownership_never_negative (inv : Investor) (txs : List CapitalFlow)
    (hist : List MonthlyNav) (tr : List ℚ)
    (htr : ownershipTrace inv txs hist = some tr)
    (hinit : 0 ≤ inv.initial_investment)
    (hpos : ∀ n ∈ hist, 0 < n.total_nav ∧ ∀ w, n.start_nav = some w → 0 < w)
    (hamt : ∀ c ∈ txs, 0 < c.amount) :
    (∀ x ∈ tr, 0 ≤ x)
    ∧ (∀ entryNav, inv.name ≠ "Mitchell Pantelides" → inv.name ≠ "Marc & Kim Daudet" →
        entrySelect (sortNavAsc hist) inv = some entryNav →
        tr.head? = some (inv.initial_investment / entryNav))
    ∧ (∀ s d n, (walkStep inv inv.start_date.t s ⟨d, EvData.nav n⟩).ownershipPercentage =
        s.ownershipPercentage)
    ∧ (∀ s d c, inv.start_date.t ≤ d.t → c.investor_id = inv.id → c.type = "contribution" →
        0 < c.amount → 0 < s.currentNavValue →
        s.ownershipPercentage <
          (walkStep inv inv.start_date.t s ⟨d, EvData.txn c⟩).ownershipPercentage)
    ∧ (∀ s d c, inv.start_date.t ≤ d.t → c.investor_id = inv.id → c.type = "withdrawal" →
        (walkStep inv inv.start_date.t s ⟨d, EvData.txn c⟩).ownershipPercentage =
          max 0 ((s.currentNavValue * s.ownershipPercentage - c.amount) /
            s.currentNavValue)) := by
  have hpos' : ∀ n ∈ sortNavAsc hist, 0 < n.total_nav ∧ ∀ w, n.start_nav = some w → 0 < w :=
    fun n hn => hpos n (mem_stableSortBy.mp hn)
  unfold ownershipTrace at htr
  split at htr
  · exact Option.noConfusion htr
  · dsimp only at htr
    split at htr
    next => exact Option.noConfusion htr
    next s0 hwi =>
      injection htr with htr
      subst htr
      obtain ⟨entryNav0, hent0, hs0⟩ := Option.map_eq_some'.mp hwi
      subst hs0
      refine ⟨?_, ?_, ?_, ?_, ?_⟩
      · intro x hx
        rw [List.mem_map] at hx
        obtain ⟨y, hy, rfl⟩ := hx
        exact (scanl_walk_preserves inv inv.start_date.t _ _
          (specialInit_preserves hinit hpos' (entrySelect_pos hpos' hent0))
          (fun e he => timeline_event_bounds he hpos (fun c hc => (hamt c hc).le)) y hy).1
      · intro entryNav hn1 hn2 hent
        rw [hent0] at hent
        injection hent with hent
        subst hent
        rw [List.head?_map, scanl_head, Option.map_some',
          specialInit_generic inv _ _ _ hn1 hn2]
      · intro s d n
        exact walkStep_nav_ownership inv inv.start_date.t s d n
      · intro s d c hdl hid hty hca hnv
        unfold walkStep
        rw [if_neg (not_lt.mpr hdl)]
        dsimp only
        rw [if_neg (fun hne => hne hid), if_pos hty]
        dsimp only
        have hnv0 : s.currentNavValue ≠ 0 := ne_of_gt hnv
        rw [add_div, mul_comm, mul_div_assoc, div_self hnv0, mul_one]
        exact lt_add_of_pos_right _ (div_pos hca hnv)
      · intro s d c hdl hid hty
        have hnc : ¬ (c.type = "contribution") := by
          rw [hty]; decide
        unfold walkStep
        rw [if_neg (not_lt.mpr hdl)]
        dsimp only
        rw [if_neg (fun hne => hne hid), if_neg hnc, if_pos hty]

/-- Witness for C2: an ordinary investor with one mid-February
contribution; the trace runs 1, 1, 13/10 and stays nonnegative. -/
theorem c2_ownership_never_negative_witness :
    ownershipTrace (sampleInvestor "Alice Wong") [cAlice] [navJan] = some [1, 1, 13 / 10] ∧
      ∀ x ∈ [(1 : ℚ), 1, 13 / 10], 0 ≤ x := by
  have htr : ownershipTrace (sampleInvestor "Alice Wong") [cAlice] [navJan] =
      some [1, 1, 13 / 10] := by
    norm_num +decide [ownershipTrace, sampleInvestor, navJan, walkInit, entrySelect, viaMonthStart,
      sortNavAsc, stableSortBy, insertBy, findClosestNavPoint, specialInit, marcRebase,
      marcAdjust, mitchellAdjust, createUnifiedTimeline, navEvents, startEvents, txnEvents,
      dateLe, walkStep, isMonthStartAt, hasStartNavTruthy, ym202502, dJan31, dFeb15, cAlice,
      List.scanl, List.foldl, List.find?, List.filter]
  refine ⟨htr, ?_⟩
  refine (c2_ownership_never_negative (sampleInvestor "Alice Wong") [cAlice] [navJan] _ htr
    (by norm_num [sampleInvestor]) ?_ ?_).1
  · intro n hn
    rw [List.mem_singleton] at hn
    subst hn
    exact ⟨by norm_num [navJan], fun w hw => absurd hw (by simp [navJan])⟩
  · intro c hc
    rw [List.mem_singleton] at hc
    subst hc
    norm_num [cAlice]

/-- Counterexample for C2 as stated: the claim says the walk starts at
`initial_investment / entry_nav`.  For a Marc & Kim Daudet account of 1
against an entry NAV of 100, the special handling detects the ownership
fraction 1/100 below 0.05 and boosts it by 15 percent, so the trace
starts at 23/2000, not at 1/100. -/
theorem c2_counterexample :
    entrySelect (sortNavAsc [navJan]) marcBoostInv = some 100
    ∧ ownershipTrace marcBoostInv [] [navJan] = some [23 / 2000, 23 / 2000]
    ∧ (23 / 2000 : ℚ) ≠ marcBoostInv.initial_investment / 100 := by
  refine ⟨by decide, ?_, by norm_num [marcBoostInv]⟩
  norm_num +decide [ownershipTrace, marcBoostInv, navJan, walkInit, entrySelect, viaMonthStart,
    sortNavAsc, stableSortBy, insertBy, findClosestNavPoint, specialInit, marcRebase, marcAdjust,
    mitchellAdjust, createUnifiedTimeline, navEvents, startEvents, txnEvents, dateLe, walkStep,
    isMonthStartAt, hasStartNavTruthy, ym202502, dJan31, List.scanl, List.foldl, List.find?,
    List.filter, List.head?]

/-! Closed accounts. -/

theorem closed_currentValue_zero (inv : Investor) (txs : List CapitalFlow)
    (latestNav : MonthlyNav) (hist : List MonthlyNav) (hstat : inv.status = "closed") :
    (calculateInvestorValue inv txs latestNav hist).currentValue = 0 := by
  unfold calculateInvestorValue
  rw [if_pos hstat]
  unfold closedResult
  split <;> rfl

theorem adjustOne_generic (r : InvResult) (hn2 : r.name ≠ "Marc & Kim Daudet")
    (hn1 : r.name ≠ "Mitchell Pantelides") : adjustOne r = r := by
  unfold adjustOne
  rw [if_neg (fun hc => hn2 hc.1), if_neg (fun hc => hn1 hc.1)]

theorem scaleOne_inactive (f : ℚ) (r : InvResult) (hr : r.status ≠ "active") :
    scaleOne f r = r := by
  unfold scaleOne
  rw [if_neg hr]

/-- C3, corrected: a closed account always has `current_value = 0` from
`calculateInvestorValue`; with a withdrawal on record its return is
`(last_withdrawal − total_invested) / total_invested * 100` only when the
simple-sum `total_invested` is positive (the `invested ≤ 0` guard returns
0 otherwise); with no withdrawal the result is `{0, 0}`; and in the batch
output of `calculateInvestorValues` the value of a closed investor is 0
provided the investor carries neither specially-adjusted name. -/
theorem c3_closed_account :
    (∀ (inv : Investor) (txs : List CapitalFlow) (latestNav : MonthlyNav)
        (hist : List MonthlyNav), inv.status = "closed" →
      (calculateInvestorValue inv txs latestNav hist).currentValue = 0)
    ∧ (∀ (inv : Investor) (txs : List CapitalFlow) (latestNav : MonthlyNav)
          (hist : List MonthlyNav) (w : CapitalFlow), inv.status = "closed" →
        lastWithdrawal txs = some w →
        calculateInvestorValue inv txs latestNav hist =
          ⟨0, if calculateTotalInvested inv.initial_investment txs ≤ 0 then 0
              else (w.amount - calculateTotalInvested inv.initial_investment txs) /
                calculateTotalInvested inv.initial_investment txs * 100⟩)
    ∧ (∀ (inv : Investor) (txs : List CapitalFlow) (latestNav : MonthlyNav)
          (hist : List MonthlyNav), inv.status = "closed" → lastWithdrawal txs = none →
        calculateInvestorValue inv txs latestNav hist = ⟨0, 0⟩)
    ∧ (∀ (latestNav : MonthlyNav) (investors : List Investor) (hist : List MonthlyNav)
          (txsOf : String → List CapitalFlow) (i : ℕ) (inv2 : Investor),
        investors[i]? = some inv2 → inv2.status = "closed" →
        inv2.name ≠ "Marc & Kim Daudet" → inv2.name ≠ "Mitchell Pantelides" →
        ((calculateInvestorValues (some latestNav) investors hist txsOf).map
          (fun r => r.currentValue))[i]? = some 0) := by
  refine ⟨closed_currentValue_zero, ?_, ?_, ?_⟩
  · intro inv txs latestNav hist w hstat hlw
    unfold calculateInvestorValue
    rw [if_pos hstat]
    unfold closedResult
    rw [hlw]
    rfl
  · intro inv txs latestNav hist hstat hlw
    unfold calculateInvestorValue
    rw [if_pos hstat]
    unfold closedResult
    rw [hlw]
  · intro latestNav investors hist txsOf i inv2 hi hstat hn2 hn1
    have hne : ¬ (investors.isEmpty = true) := by
      cases investors with
      | nil => simp at hi
      | cons a l => simp
    have hst : inv2.status ≠ "active" := by
      rw [hstat]; decide
    simp only [calculateInvestorValues]
    rw [if_neg hne]
    unfold applyScale adjustResults investorResultsRaw
    rw [List.getElem?_map, List.getElem?_map, List.getElem?_map, List.getElem?_map, hi]
    simp only [Option.map_some']
    rw [adjustOne_generic _ hn2 hn1, scaleOne_inactive _ _ hst]
    exact congrArg some (closed_currentValue_zero inv2 (txsOf inv2.id) latestNav hist hstat)

/-- Witness for C3: a closed account that withdrew 150 against a simple
total invested of -50 gets the guard's zero return, and its batch value
is 0. -/
theorem c3_closed_account_witness :
    calculateInvestorValue bobClosed [wBob] navFebLow [navJan] = ⟨0, 0⟩ ∧
      ((calculateInvestorValues (some navFebLow) [bobClosed] [navJan] (fun _ => [wBob])).map
        (fun r => r.currentValue))[0]? = some 0 := by
  constructor
  · have h := c3_closed_account.2.1 bobClosed [wBob] navFebLow [navJan] wBob rfl (by decide)
    rw [h]
    norm_num +decide [calculateTotalInvested, bobClosed, wBob, List.foldl, CalcResult.mk.injEq]
  · exact c3_closed_account.2.2.2 navFebLow [bobClosed] [navJan] (fun _ => [wBob]) 0 bobClosed
      rfl rfl (by decide) (by decide)

/-- Counterexample for C3 as stated: the claim says `current_value = 0`
always holds for a closed investor with a withdrawal, including in the
batch result.  A closed Marc & Kim Daudet account with a withdrawal of 40
against a total invested of 60 computes a negative return, so the batch's
per-name adjustment replaces its value with `1.10 * initial_investment =
110`, which is not 0. -/
theorem c3_counterexample :
    ((calculateInvestorValues (some navFebLow) [marcClosed] [navJan] (fun _ => [wMarc])).map
      (fun r => r.currentValue)) = [(110 : ℚ)] ∧ (110 : ℚ) ≠ 0 := by
  refine ⟨?_, by norm_num⟩
  norm_num +decide [calculateInvestorValues, investorResultsRaw, adjustResults, adjustOne,
    applyScale, scaleOne, activeSum, scaleFactor, calculateInvestorValue, closedResult,
    lastWithdrawal, sortTxDesc, stableSortBy, insertBy, calculateTotalInvested, calculateReturn,
    mitchellMarcOverride, marcClosed, wMarc, navFebLow, navJan, dJan15, dFeb15, dJan31,
    List.foldl, List.filter]

end Dasein
